import Mathlib

/-!
# user-service: cache-aside repository over a record store

A shallow embedding of `internal/cache/user_info_cache.go` and
`internal/repository/user_info_repo.go`.

* The relational store (gorm over SQL) and the cache tier (the eagle redis
  cache) are external services.  They are represented by explicit state
  (`World`), every call to them is appended to a call log, and every call can
  be made to fail through a `Faults` record.
* The cache library hands the redis error for an absent key (`redis.Nil`) to
  its caller like any other error.
* Go results `(ret, err)` are pairs of `Option`s: `none` is Go `nil`.
* `int64` identifiers are `Int`; no arithmetic is performed on them.
-/

namespace UserService

/-! ## Data model -/

/-- Go `error` values, identified by their message. -/
abbrev GoError := String

/-- Modelled from the spec: the record type `model.UserInfoModel` (package
`user-service/internal/model`, not part of the sources at hand): an integer
identifier, a username, an email, a phone number, a credential hash, a status
and creation/update timestamps. -/
structure UserInfoModel where
  ID : Int
  Username : String
  Email : String
  Phone : String
  Password : String
  Status : Int
  CreatedAt : Int
  UpdatedAt : Int
deriving DecidableEq

/-- The value of `new(model.UserInfoModel)`: every field zero. -/
def UserInfoModel.zero : UserInfoModel :=
  { ID := 0, Username := "", Email := "", Phone := "", Password := "",
    Status := 0, CreatedAt := 0, UpdatedAt := 0 }

/-- A `time.Duration`, in nanoseconds. -/
abbrev Duration := Nat

/-- Go `time.Minute`. -/
def Minute : Duration := 60 * 1000000000

/-- What the cache tier holds under a key: a serialized record, or the
placeholder written by `SetCacheWithNotFound`. -/
inductive CacheValue where
  | record (r : UserInfoModel)
  | notFound
deriving DecidableEq

/-- A cache entry: its value and the time-to-live it was written with. -/
structure CacheEntry where
  val : CacheValue
  ttl : Duration
deriving DecidableEq

/-- The cache tier content, newest binding first. -/
abbrev CacheState := List (String × CacheEntry)

/-- The columns a point lookup can select on. -/
inductive Column where
  | id | username | email | phone
deriving DecidableEq

/-- An argument bound to the `?` of a statement. -/
inductive SQLArg where
  | int (i : Int)
  | str (s : String)
deriving DecidableEq

/-- A call to an external service, as recorded in the call log. -/
inductive Event where
  | cacheGet (key : String)
  | cacheSet (key : String) (ttl : Duration)
  | cacheSetNotFound (key : String)
  | cacheMultiGet (keys : List String)
  | cacheMultiSet (keys : List String) (ttl : Duration)
  | cacheDel (key : String)
  | dbSelect (col : Column) (arg : SQLArg)
  | dbSelectIn (ids : List String)
  | dbUpdate (pk : Int)
deriving DecidableEq

/-- The state outside the repository: store rows, cache content, and the log
of calls made so far (oldest first). -/
structure World where
  db : List UserInfoModel
  cache : CacheState
  log : List Event
deriving DecidableEq

/-- Which external calls fail in the operation at hand, and with which error.
`none` means the call succeeds. -/
structure Faults where
  cacheGet : Option GoError
  cacheSet : Option GoError
  cacheMultiGet : Option GoError
  cacheMultiSet : Option GoError
  cacheDel : Option GoError
  dbQuery : Option GoError
  dbUpdate : Option GoError
deriving DecidableEq

/-- Every external call succeeds. -/
def Faults.ok : Faults :=
  { cacheGet := none, cacheSet := none, cacheMultiGet := none,
    cacheMultiSet := none, cacheDel := none, dbQuery := none, dbUpdate := none }

/-- Appends a call to the log. -/
def World.record (w : World) (e : Event) : World :=
  { w with log := w.log ++ [e] }

/-! ## The cache tier (eagle `cache.Cache` over redis) -/

/-- The entry bound to `key`, if any. -/
def cacheLookup (c : CacheState) (key : String) : Option CacheEntry :=
  c.lookup key

/-- Binds `key` to `e`, replacing any earlier binding. -/
def cacheStore (c : CacheState) (key : String) (e : CacheEntry) : CacheState :=
  (key, e) :: c.filter (fun kv => kv.1 != key)

/-- Removes the binding of `key`. -/
def cacheErase (c : CacheState) (key : String) : CacheState :=
  c.filter (fun kv => kv.1 != key)

/-- The error the cache library returns from `Get` on a placeholder entry. -/
def ErrPlaceholder : GoError := "cache: placeholder"

/-- The error redis reports for a key that is not there (`redis.Nil`). -/
def ErrRedisNil : GoError := "redis: nil"

/-- Library `Cache.Get(ctx, key, &data)`: redis reports an absent key as the
error `redis.Nil`, which the library returns as it is, `data` staying nil; a
placeholder entry is reported as `ErrPlaceholder`. -/
def World.cacheGet (f : Faults) (w : World) (key : String) :
    (Option UserInfoModel × Option GoError) × World :=
  let w1 := w.record (Event.cacheGet key)
  match f.cacheGet with
  | some e => ((none, some e), w1)
  | none =>
    match cacheLookup w.cache key with
    | none => ((none, some ErrRedisNil), w1)
    | some ⟨CacheValue.notFound, _⟩ => ((none, some ErrPlaceholder), w1)
    | some ⟨CacheValue.record r, _⟩ => ((some r, none), w1)

/-- Library `Cache.Set(ctx, key, val, ttl)`: a failed set writes nothing. -/
def World.cacheSet (f : Faults) (w : World) (key : String) (r : UserInfoModel)
    (ttl : Duration) : Option GoError × World :=
  let w1 := w.record (Event.cacheSet key ttl)
  match f.cacheSet with
  | some e => (some e, w1)
  | none => (none, { w1 with cache := cacheStore w1.cache key ⟨CacheValue.record r, ttl⟩ })

/-- Library `Cache.SetCacheWithNotFound(ctx, key)`; the placeholder carries the
time-to-live of the library, which is not modelled (0). -/
def World.cacheSetNotFound (f : Faults) (w : World) (key : String) :
    Option GoError × World :=
  let w1 := w.record (Event.cacheSetNotFound key)
  match f.cacheSet with
  | some e => (some e, w1)
  | none => (none, { w1 with cache := cacheStore w1.cache key ⟨CacheValue.notFound, 0⟩ })

/-- Library `Cache.Del(ctx, key)`: a failed delete leaves the entry in place. -/
def World.cacheDel (f : Faults) (w : World) (key : String) : Option GoError × World :=
  let w1 := w.record (Event.cacheDel key)
  match f.cacheDel with
  | some e => (some e, w1)
  | none => (none, { w1 with cache := cacheErase w1.cache key })

/-- The bindings `MultiGet` puts in the result map: one per requested key that
holds a record, keyed by that cache key.  Keys that are absent or hold the
placeholder are left out. -/
def multiGetMap (c : CacheState) : List String → List (String × UserInfoModel)
  | [] => []
  | k :: ks =>
    match cacheLookup c k with
    | some ⟨CacheValue.record r, _⟩ => (k, r) :: multiGetMap c ks
    | _ => multiGetMap c ks

/-- Library `Cache.MultiGet(ctx, keys, retMap)`. -/
def World.cacheMultiGet (f : Faults) (w : World) (keys : List String) :
    (List (String × UserInfoModel) × Option GoError) × World :=
  let w1 := w.record (Event.cacheMultiGet keys)
  match f.cacheMultiGet with
  | some e => (([], some e), w1)
  | none => ((multiGetMap w.cache keys, none), w1)

/-- Library `Cache.MultiSet(ctx, valMap, ttl)`: a failed call writes nothing. -/
def World.cacheMultiSet (f : Faults) (w : World) (valMap : List (String × UserInfoModel))
    (ttl : Duration) : Option GoError × World :=
  let w1 := w.record (Event.cacheMultiSet (valMap.map Prod.fst) ttl)
  match f.cacheMultiSet with
  | some e => (some e, w1)
  | none =>
    let c1 := valMap.foldl (fun c kv => cacheStore c kv.1 ⟨CacheValue.record kv.2, ttl⟩) w1.cache
    (none, { w1 with cache := c1 })

/-! ## `internal/cache/user_info_cache.go` -/

/-- Source `GetUserInfoCacheKey`: `fmt.Sprintf("user:info:%d", id)`. -/
def GetUserInfoCacheKey (id : Int) : String :=
  "user:info:" ++ toString id

/-- Source `SetUserInfoCache`: nothing is written for nil data or id 0. -/
def SetUserInfoCache (f : Faults) (w : World) (id : Int) (data : Option UserInfoModel)
    (duration : Duration) : Option GoError × World :=
  match data with
  | none => (none, w)
  | some d =>
    if id = 0 then (none, w)
    else
      let cacheKey := GetUserInfoCacheKey id
      w.cacheSet f cacheKey d duration

/-- Source `GetUserInfoCache`: the library result, every error being passed on
(the error of an absent key included). -/
def GetUserInfoCache (f : Faults) (w : World) (id : Int) :
    (Option UserInfoModel × Option GoError) × World :=
  let cacheKey := GetUserInfoCacheKey id
  match w.cacheGet f cacheKey with
  | ((_, some err), w1) => ((none, some err), w1)
  | ((data, none), w1) => ((data, none), w1)

/-- Source `MultiGetUserInfoCache`: one key per id, in order, then one `MultiGet`.
A nil map is the empty list. -/
def MultiGetUserInfoCache (f : Faults) (w : World) (ids : List Int) :
    (List (String × UserInfoModel) × Option GoError) × World :=
  let keys := ids.map GetUserInfoCacheKey
  match w.cacheMultiGet f keys with
  | ((_, some err), w1) => (([], some err), w1)
  | ((retMap, none), w1) => ((retMap, none), w1)

/-- The map `MultiSetUserInfoCache` builds: `valMap[cacheKey] = v` for each
record in turn, a later record replacing an earlier one under the same key. -/
def buildValMap (data : List UserInfoModel) : List (String × UserInfoModel) :=
  data.foldl
    (fun m v => (GetUserInfoCacheKey v.ID, v) :: m.filter (fun kv => kv.1 != GetUserInfoCacheKey v.ID))
    []

/-- Source `MultiSetUserInfoCache`. -/
def MultiSetUserInfoCache (f : Faults) (w : World) (data : List UserInfoModel)
    (duration : Duration) : Option GoError × World :=
  w.cacheMultiSet f (buildValMap data) duration

/-- Source `DelUserInfoCache`. -/
def DelUserInfoCache (f : Faults) (w : World) (id : Int) : Option GoError × World :=
  let cacheKey := GetUserInfoCacheKey id
  w.cacheDel f cacheKey

/-- Source `SetCacheWithNotFound`: a method of the cache struct that is not part of
the `UserInfoCache` interface the repository holds. -/
def SetCacheWithNotFound (f : Faults) (w : World) (id : Int) : Option GoError × World :=
  let cacheKey := GetUserInfoCacheKey id
  w.cacheSetNotFound f cacheKey

/-! ## The record store (gorm over SQL) -/

/-- Whether a row satisfies `WHERE <col> = ?` for the bound argument. -/
def Column.selects : Column → SQLArg → UserInfoModel → Bool
  | Column.id, SQLArg.int i, r => r.ID == i
  | Column.username, SQLArg.str s, r => r.Username == s
  | Column.email, SQLArg.str s, r => r.Email == s
  | Column.phone, SQLArg.str s, r => r.Phone == s
  | _, _, _ => false

/-- Library call `db.Raw("SELECT * FROM t WHERE <col> = ?", arg).Scan(&dest)`: the first
selected row is scanned into `dest`; with no such row `dest` keeps its value
and no error is reported; on a store error `dest` keeps its value. -/
def World.dbRawScan (f : Faults) (w : World) (col : Column) (arg : SQLArg)
    (dest : UserInfoModel) : (UserInfoModel × Option GoError) × World :=
  let w1 := w.record (Event.dbSelect col arg)
  match f.dbQuery with
  | some e => ((dest, some e), w1)
  | none =>
    match w.db.find? (col.selects arg) with
    | some row => ((row, none), w1)
    | none => ((dest, none), w1)

/-- The row `SELECT * FROM t WHERE id = ?` yields for `id`, if any. -/
def hasRow (w : World) (id : Int) : Option UserInfoModel :=
  w.db.find? (Column.id.selects (SQLArg.int id))

/-- The number of point lookups by `id` that the store has received. -/
def storeQueries (w : World) (id : Int) : Nat :=
  w.log.count (Event.dbSelect Column.id (SQLArg.int id))

/-- Library call `db.Raw("SELECT * FROM t WHERE id IN (<idsStr joined by commas>)").Scan(&dest)`:
the rows whose identifier is one of the listed literals, each row once. -/
def World.dbRawScanIn (f : Faults) (w : World) (idsStr : List String) :
    (List UserInfoModel × Option GoError) × World :=
  let w1 := w.record (Event.dbSelectIn idsStr)
  match f.dbQuery with
  | some e => (([], some e), w1)
  | none => ((w.db.filter (fun r => decide (toString r.ID ∈ idsStr)), none), w1)

/-- Library gorm `Updates` with a struct, on one row: every non-zero field of
the struct is assigned to the column of the same name, the others are left as
they are. -/
def applyPatch (row patch : UserInfoModel) : UserInfoModel :=
  { ID := if patch.ID = 0 then row.ID else patch.ID,
    Username := if patch.Username = "" then row.Username else patch.Username,
    Email := if patch.Email = "" then row.Email else patch.Email,
    Phone := if patch.Phone = "" then row.Phone else patch.Phone,
    Password := if patch.Password = "" then row.Password else patch.Password,
    Status := if patch.Status = 0 then row.Status else patch.Status,
    CreatedAt := if patch.CreatedAt = 0 then row.CreatedAt else patch.CreatedAt,
    UpdatedAt := if patch.UpdatedAt = 0 then row.UpdatedAt else patch.UpdatedAt }

/-- The error gorm reports for an update without a `WHERE` condition. -/
def ErrMissingWhereClause : GoError := "WHERE conditions required"

/-- The error gorm reports for a nil model. -/
def ErrInvalidValue : GoError := "invalid value"

/-- The error of the store when an update would give two rows one identifier. -/
def ErrDuplicateKey : GoError := "duplicate entry for key PRIMARY"

/-- Library call `db.Model(&item).Updates(data)`: the rows whose identifier is
`item.ID` are patched.  A model with identifier 0 yields no `WHERE` condition,
which gorm refuses; the store refuses an update that would move a row onto the
identifier of another row. -/
def World.dbUpdates (f : Faults) (w : World) (item : Option UserInfoModel)
    (data : UserInfoModel) : Option GoError × World :=
  match item with
  | none => (some ErrInvalidValue, w)
  | some it =>
    let w1 := w.record (Event.dbUpdate it.ID)
    match f.dbUpdate with
    | some e => (some e, w1)
    | none =>
      if it.ID = 0 then (some ErrMissingWhereClause, w1)
      else if data.ID ≠ 0 ∧ data.ID ≠ it.ID ∧ w1.db.any (fun r => r.ID == it.ID) ∧
          w1.db.any (fun r => r.ID == data.ID) then (some ErrDuplicateKey, w1)
      else
        let rows := w1.db.map (fun r => if r.ID = it.ID then applyPatch r data else r)
        (none, { w1 with db := rows })

/-! ## `internal/repository/user_info_repo.go` -/

/-- Source `_getUserInfoSQL = "SELECT * FROM %s WHERE id = ?"`. -/
def _getUserInfoSQL : Column := Column.id

/-- Source `_getUserInfoByUsernameSQL = "SELECT * FROM %s WHERE username = ?"`. -/
def _getUserInfoByUsernameSQL : Column := Column.username

/-- Source `_getUserInfoByEmailSQL = "SELECT * FROM %s WHERE email = ?"`. -/
def _getUserInfoByEmailSQL : Column := Column.email

/-- Source `_getUserInfoByPhoneSQL = "SELECT * FROM %s WHERE phone = ?"`. -/
def _getUserInfoByPhoneSQL : Column := Column.phone

/-- Library `cast.ToString` on an `int64`: its decimal rendering. -/
def castToString (v : Int) : String := toString v

/-- Library `cast.ToStringSlice` on a `[]int64`. -/
def castToStringSlice (ids : List Int) : List String := ids.map castToString

/-- Library `errors.Wrapf(err, "[repo] update UserInfo err: %v", err)`. -/
def wrapUpdateErr (err : GoError) : GoError :=
  "[repo] update UserInfo err: " ++ err ++ ": " ++ err

/-- Source `GetUserByUsername`. -/
def GetUserByUsername (f : Faults) (w : World) (username : String) :
    (Option UserInfoModel × Option GoError) × World :=
  let item := UserInfoModel.zero
  match w.dbRawScan f _getUserInfoByUsernameSQL (SQLArg.str username) item with
  | ((_, some err), w1) => ((none, some err), w1)
  | ((item, none), w1) => ((some item, none), w1)

/-- Source `GetUserByEmail`: the statement it formats is `_getUserInfoByUsernameSQL`. -/
def GetUserByEmail (f : Faults) (w : World) (email : String) :
    (Option UserInfoModel × Option GoError) × World :=
  let item := UserInfoModel.zero
  match w.dbRawScan f _getUserInfoByUsernameSQL (SQLArg.str email) item with
  | ((_, some err), w1) => ((none, some err), w1)
  | ((item, none), w1) => ((some item, none), w1)

/-- Source `GetUserByPhone`: the statement it formats is `_getUserInfoByUsernameSQL`. -/
def GetUserByPhone (f : Faults) (w : World) (phone : String) :
    (Option UserInfoModel × Option GoError) × World :=
  let item := UserInfoModel.zero
  match w.dbRawScan f _getUserInfoByUsernameSQL (SQLArg.str phone) item with
  | ((_, some err), w1) => ((none, some err), w1)
  | ((item, none), w1) => ((some item, none), w1)

/-- Source `GetUserInfo`: cache first, any error of the cache get being returned;
when the cache get gives neither a record nor an error, the store, then a
cache write when the scanned record has a positive identifier. -/
def GetUserInfo (f : Faults) (w : World) (id : Int) :
    (Option UserInfoModel × Option GoError) × World :=
  -- read cache
  match GetUserInfoCache f w id with
  | ((_, some err), w1) => ((none, some err), w1)
  | ((some item, none), w1) => ((some item, none), w1)
  | ((none, none), w1) =>
    -- read db
    let data := UserInfoModel.zero
    match w1.dbRawScan f _getUserInfoSQL (SQLArg.int id) data with
    | ((_, some err), w2) => ((none, some err), w2)
    | ((data, none), w2) =>
      -- write cache
      if data.ID > 0 then
        match SetUserInfoCache f w2 id (some data) (5 * Minute) with
        | (some err, w3) => ((none, some err), w3)
        | (none, w3) => ((some data, none), w3)
      else ((some data, none), w2)

/-- Source `UpdateUserInfo`: load, patch the store, then delete the cache entry,
discarding the result of the delete. -/
def UpdateUserInfo (f : Faults) (w : World) (id : Int) (data : UserInfoModel) :
    Option GoError × World :=
  match GetUserInfo f w id with
  | ((_, some err), w1) => (some (wrapUpdateErr err), w1)
  | ((item, none), w1) =>
    match w1.dbUpdates f item data with
    | (some err, w2) => (some err, w2)
    | (none, w2) =>
      -- delete cache
      let (_, w3) := DelUserInfoCache f w2 id
      (none, w3)

/-- The loop of `BatchGetUserInfo` over `ids`: an id whose `cast.ToString` is a
key of `itemMap` adds the mapped item to `ret`, any other id is appended to
`missedID`.  Returns `(ret, missedID)`. -/
def partitionIDs (itemMap : List (String × UserInfoModel)) :
    List Int → List UserInfoModel × List Int → List UserInfoModel × List Int
  | [], acc => acc
  | v :: vs, (ret, missedID) =>
    match itemMap.lookup (castToString v) with
    | none => partitionIDs itemMap vs (ret, missedID ++ [v])
    | some item => partitionIDs itemMap vs (ret ++ [item], missedID)

/-- Source `BatchGetUserInfo`. -/
def BatchGetUserInfo (f : Faults) (w : World) (ids : List Int) :
    (List UserInfoModel × Option GoError) × World :=
  -- read cache
  let idsStr := castToStringSlice ids
  match MultiGetUserInfoCache f w ids with
  | ((_, some err), w1) => (([], some err), w1)
  | ((itemMap, none), w1) =>
    let (ret, missedID) := partitionIDs itemMap ids ([], [])
    -- get missed data
    if missedID.length > 0 then
      match w1.dbRawScanIn f idsStr with
      | ((_, some err), w2) => (([], some err), w2)
      | ((missedData, none), w2) =>
        if missedData.length > 0 then
          let ret := ret ++ missedData
          match MultiSetUserInfoCache f w2 missedData (5 * Minute) with
          | (some err, w3) => (([], some err), w3)
          | (none, w3) => ((ret, none), w3)
        else ((ret, none), w2)
    else ((ret, none), w1)

/-! ## Concurrent `GetUserInfo` calls, interleaved at the external calls -/

/-- Where a `GetUserInfo` call stands: before its cache get, before its store
query (the cache get gave neither a record nor an error), before its cache set (the store query scanned a
record with a positive identifier), or returned. -/
inductive Pc where
  | start
  | missed
  | scanned (data : UserInfoModel)
  | done (ret : Option UserInfoModel × Option GoError)
deriving DecidableEq

/-- One external call of a `GetUserInfo id` in progress, with the control flow
of `GetUserInfo` between two calls.  Nothing stands between the cache get and
the store query: the package-level `singleflight.Group` `g` is not used. -/
def stepGetUserInfo (f : Faults) (id : Int) (w : World) : Pc → Pc × World
  | Pc.start =>
    match GetUserInfoCache f w id with
    | ((_, some err), w1) => (Pc.done (none, some err), w1)
    | ((some item, none), w1) => (Pc.done (some item, none), w1)
    | ((none, none), w1) => (Pc.missed, w1)
  | Pc.missed =>
    match w.dbRawScan f _getUserInfoSQL (SQLArg.int id) UserInfoModel.zero with
    | ((_, some err), w2) => (Pc.done (none, some err), w2)
    | ((data, none), w2) =>
      if data.ID > 0 then (Pc.scanned data, w2) else (Pc.done (some data, none), w2)
  | Pc.scanned data =>
    match SetUserInfoCache f w id (some data) (5 * Minute) with
    | (some err, w3) => (Pc.done (none, some err), w3)
    | (none, w3) => (Pc.done (some data, none), w3)
  | Pc.done ret => (Pc.done ret, w)

/-- Concurrent callers of `GetUserInfo id` over one shared world. -/
structure Sys where
  world : World
  pcs : List Pc
deriving DecidableEq

/-- The callers, `n` of them, before any has made a call. -/
def Sys.init (w : World) (n : Nat) : Sys :=
  { world := w, pcs := List.replicate n Pc.start }

/-- Caller `i` makes its next external call; an index without a caller does
nothing. -/
def Sys.step (f : Faults) (id : Int) (s : Sys) (i : Nat) : Sys :=
  match s.pcs[i]? with
  | none => s
  | some pc =>
    let (pc1, w1) := stepGetUserInfo f id s.world pc
    { world := w1, pcs := s.pcs.set i pc1 }

/-- Runs a schedule: the callers move in the listed order. -/
def Sys.run (f : Faults) (id : Int) (s : Sys) (sched : List Nat) : Sys :=
  sched.foldl (Sys.step f id) s

/-! ## Concrete worlds used in the examples -/

/-- A stored record with identifier 1. -/
def amy : UserInfoModel :=
  { ID := 1, Username := "amy", Email := "a@x.com", Phone := "555", Password := "h1",
    Status := 1, CreatedAt := 1700000000, UpdatedAt := 0 }

/-- A stored record with identifier 2. -/
def bob : UserInfoModel :=
  { ID := 2, Username := "bob", Email := "b@x.com", Phone := "556", Password := "h2",
    Status := 1, CreatedAt := 1700000001, UpdatedAt := 0 }

/-- A store holding `amy` and `bob`, an empty cache, an empty log. -/
def coldWorld : World := { db := [amy, bob], cache := [], log := [] }

/-- The cache tier refuses reads. -/
def cacheGetDown : Faults := { Faults.ok with cacheGet := some "redis: get failed" }

/-- The cache tier refuses deletes. -/
def cacheDelDown : Faults := { Faults.ok with cacheDel := some "redis: del failed" }

/-- The store refuses queries. -/
def storeDown : Faults := { Faults.ok with dbQuery := some "db: connection refused" }

/-- The world `coldWorld` with a copy of `amy` cached under the key of id 1. -/
def warmWorld : World :=
  { db := [amy, bob],
    cache := [(GetUserInfoCacheKey 1, ⟨CacheValue.record amy, 5 * Minute⟩)],
    log := [] }

/-- A patch that sets the email only. -/
def emailPatch : UserInfoModel := { UserInfoModel.zero with Email := "amy@new.org" }

/-! ## Basic facts about the cache tier and the store -/

theorem cacheLookup_cacheStore_self (c : CacheState) (key : String) (e : CacheEntry) :
    cacheLookup (cacheStore c key e) key = some e := by
  simp [cacheLookup, cacheStore, List.lookup]

theorem cacheLookup_cacheErase_self (c : CacheState) (key : String) :
    cacheLookup (cacheErase c key) key = none := by
  induction c with
  | nil => rfl
  | cons kv c ih =>
    obtain ⟨k, v⟩ := kv
    by_cases h : k = key
    · simpa [cacheLookup, cacheErase, List.filter_cons, h] using ih
    · have h2 : (key == k) = false := by simpa using fun e => h e.symm
      simpa [cacheLookup, cacheErase, List.filter_cons, h, List.lookup, h2] using ih

theorem hasRow_id (w : World) (id : Int) (r : UserInfoModel)
    (h : hasRow w id = some r) : r.ID = id := by
  have := List.find?_some h
  simpa [Column.selects] using this

/-! ## Decimal renderings are not cache keys -/

theorem digitChar_ne_u (k : Nat) (hk : k < 10) : Nat.digitChar k ≠ 'u' := by
  interval_cases k <;> decide

theorem toDigitsCore_head (fuel n : Nat) (ds : List Char)
    (h : 0 < fuel ∨ ∃ k, k < 10 ∧ ∃ tl, ds = Nat.digitChar k :: tl) :
    ∃ k, k < 10 ∧ ∃ tl, Nat.toDigitsCore 10 fuel n ds = Nat.digitChar k :: tl := by
  induction fuel generalizing n ds with
  | zero =>
    rcases h with h | h
    · omega
    · simpa [Nat.toDigitsCore] using h
  | succ fuel ih =>
    by_cases hn : n / 10 = 0
    · exact ⟨n % 10, Nat.mod_lt _ (by decide), ds, by simp [Nat.toDigitsCore, hn]⟩
    · have := ih (n / 10) (Nat.digitChar (n % 10) :: ds)
        (Or.inr ⟨n % 10, Nat.mod_lt _ (by decide), ds, rfl⟩)
      simpa [Nat.toDigitsCore, hn] using this

theorem natRepr_head (n : Nat) : ∃ k, k < 10 ∧ ∃ tl, (Nat.repr n).data = Nat.digitChar k :: tl := by
  have := toDigitsCore_head (n + 1) n [] (Or.inl (Nat.succ_pos n))
  simpa [Nat.repr, Nat.toDigits] using this

theorem castToString_ne_cacheKey (v j : Int) : castToString v ≠ GetUserInfoCacheKey j := by
  intro h
  have hd := congrArg String.data h
  have hkey : (GetUserInfoCacheKey j).data = 'u' :: ("ser:info:" ++ toString j).data := by
    simp [GetUserInfoCacheKey, String.data_append]
  rw [hkey] at hd
  cases v with
  | ofNat m =>
    obtain ⟨k, hk, tl, hm⟩ := natRepr_head m
    have : (castToString (Int.ofNat m)).data = (Nat.repr m).data := rfl
    rw [this, hm] at hd
    injection hd with h1 _
    exact digitChar_ne_u k hk h1
  | negSucc m =>
    have : (castToString (Int.negSucc m)).data = '-' :: (Nat.repr (m + 1)).data := by
      show ("-" ++ Nat.repr (Nat.succ m)).data = _
      simp [String.data_append]
    rw [this] at hd
    injection hd with h1 _
    exact absurd h1 (by decide)


/-! ## `GetUserInfo`, path by path -/

theorem getUserInfo_cacheErr (f : Faults) (w : World) (id : Int) (e : GoError)
    (hget : f.cacheGet = some e) :
    GetUserInfo f w id
      = ((none, some e), w.record (Event.cacheGet (GetUserInfoCacheKey id))) := by
  simp [GetUserInfo, GetUserInfoCache, World.cacheGet, hget]

theorem getUserInfo_hit (f : Faults) (w : World) (id : Int) (r : UserInfoModel) (t : Duration)
    (hget : f.cacheGet = none)
    (hhit : cacheLookup w.cache (GetUserInfoCacheKey id) = some ⟨CacheValue.record r, t⟩) :
    GetUserInfo f w id
      = ((some r, none), w.record (Event.cacheGet (GetUserInfoCacheKey id))) := by
  simp [GetUserInfo, GetUserInfoCache, World.cacheGet, hget, hhit]

theorem getUserInfo_placeholder (f : Faults) (w : World) (id : Int) (t : Duration)
    (hget : f.cacheGet = none)
    (hhit : cacheLookup w.cache (GetUserInfoCacheKey id) = some ⟨CacheValue.notFound, t⟩) :
    GetUserInfo f w id
      = ((none, some ErrPlaceholder), w.record (Event.cacheGet (GetUserInfoCacheKey id))) := by
  simp [GetUserInfo, GetUserInfoCache, World.cacheGet, hget, hhit]

/-- On a key that is not in the cache the error of the cache get is returned:
the store is not queried and nothing is written. -/
theorem getUserInfo_absent (f : Faults) (w : World) (id : Int)
    (hget : f.cacheGet = none)
    (hmiss : cacheLookup w.cache (GetUserInfoCacheKey id) = none) :
    GetUserInfo f w id
      = ((none, some ErrRedisNil), w.record (Event.cacheGet (GetUserInfoCacheKey id))) := by
  simp [GetUserInfo, GetUserInfoCache, World.cacheGet, hget, hmiss]

/-- The paths through `GetUserInfo` that the cache tier lets it take. -/
theorem getUserInfo_cases (f : Faults) (w : World) (id : Int) :
    (∃ e, f.cacheGet = some e ∧
      GetUserInfo f w id
        = ((none, some e), w.record (Event.cacheGet (GetUserInfoCacheKey id)))) ∨
    (∃ r t, f.cacheGet = none ∧
      cacheLookup w.cache (GetUserInfoCacheKey id) = some ⟨CacheValue.record r, t⟩ ∧
      GetUserInfo f w id
        = ((some r, none), w.record (Event.cacheGet (GetUserInfoCacheKey id)))) ∨
    (∃ t, f.cacheGet = none ∧
      cacheLookup w.cache (GetUserInfoCacheKey id) = some ⟨CacheValue.notFound, t⟩ ∧
      GetUserInfo f w id
        = ((none, some ErrPlaceholder), w.record (Event.cacheGet (GetUserInfoCacheKey id)))) ∨
    (f.cacheGet = none ∧ cacheLookup w.cache (GetUserInfoCacheKey id) = none ∧
      GetUserInfo f w id
        = ((none, some ErrRedisNil), w.record (Event.cacheGet (GetUserInfoCacheKey id)))) := by
  cases hget : f.cacheGet with
  | some e => exact Or.inl ⟨e, rfl, getUserInfo_cacheErr f w id e hget⟩
  | none =>
    right
    cases hl : cacheLookup w.cache (GetUserInfoCacheKey id) with
    | some entry =>
      obtain ⟨v, t⟩ := entry
      cases v with
      | record r => exact Or.inl ⟨r, t, rfl, rfl, getUserInfo_hit f w id r t hget hl⟩
      | notFound => exact Or.inr (Or.inl ⟨t, rfl, rfl, getUserInfo_placeholder f w id t hget hl⟩)
    | none => exact Or.inr (Or.inr ⟨rfl, rfl, getUserInfo_absent f w id hget hl⟩)

theorem getUserInfo_db (f : Faults) (w : World) (id : Int) :
    (GetUserInfo f w id).2.db = w.db := by
  rcases getUserInfo_cases f w id with ⟨e, -, h⟩ | ⟨r, t, -, -, h⟩ | ⟨t, -, -, h⟩ | ⟨-, -, h⟩ <;>
    rw [h] <;> rfl

theorem getUserInfo_cache (f : Faults) (w : World) (id : Int) :
    (GetUserInfo f w id).2.cache = w.cache := by
  rcases getUserInfo_cases f w id with ⟨e, -, h⟩ | ⟨r, t, -, -, h⟩ | ⟨t, -, -, h⟩ | ⟨-, -, h⟩ <;>
    rw [h] <;> rfl

theorem getUserInfo_count_del (f : Faults) (w : World) (id : Int) (k : String) :
    (GetUserInfo f w id).2.log.count (Event.cacheDel k) = w.log.count (Event.cacheDel k) := by
  rcases getUserInfo_cases f w id with ⟨e, -, h⟩ | ⟨r, t, -, -, h⟩ | ⟨t, -, -, h⟩ | ⟨-, -, h⟩ <;>
    rw [h] <;> simp [World.record, List.count_append, List.count_cons]

theorem getUserInfo_ignores_cacheDel (f : Faults) (w : World) (id : Int) (d : Option GoError) :
    GetUserInfo { f with cacheDel := d } w id = GetUserInfo f w id := rfl

theorem dbUpdates_ignores_cacheDel (f : Faults) (w : World) (item : Option UserInfoModel)
    (data : UserInfoModel) (d : Option GoError) :
    w.dbUpdates { f with cacheDel := d } item data = w.dbUpdates f item data := rfl

theorem dbUpdates_count_del (f : Faults) (w : World) (item : Option UserInfoModel)
    (data : UserInfoModel) (k : String) :
    (w.dbUpdates f item data).2.log.count (Event.cacheDel k) = w.log.count (Event.cacheDel k) := by
  unfold World.dbUpdates
  cases item with
  | none => rfl
  | some it =>
    cases f.dbUpdate with
    | some e => simp [World.record, List.count_append, List.count_cons]
    | none =>
      by_cases h : it.ID = 0
      · simp [World.record, List.count_append, List.count_cons, h]
      · simp only [h, if_false]
        split <;> simp [World.record, List.count_append, List.count_cons]

/-! ## Single-record reads -/

/-- C1 at a failing input: id 1 has a stored record in `coldWorld` and the
cache holds nothing under its key.  Both of two sequential `GetUserInfo 1`
calls return no record and the error of the cache get; the store has received
no query and the cache is still empty. -/
theorem getUserInfo_cold_read_fails :
    hasRow coldWorld 1 = some amy ∧
    cacheLookup coldWorld.cache (GetUserInfoCacheKey 1) = none ∧
    (GetUserInfo Faults.ok coldWorld 1).1 = (none, some "redis: nil") ∧
    (GetUserInfo Faults.ok (GetUserInfo Faults.ok coldWorld 1).2 1).1
      = (none, some "redis: nil") ∧
    storeQueries (GetUserInfo Faults.ok (GetUserInfo Faults.ok coldWorld 1).2 1).2 1 = 0 ∧
    (GetUserInfo Faults.ok (GetUserInfo Faults.ok coldWorld 1).2 1).2.cache = [] := by
  decide

/-- C2 at a failing input: id 7 has no stored record in `coldWorld` and
nothing is cached.  Both of two sequential `GetUserInfo 7` calls return no
record and the error of the cache get, not an empty result; the store has
received no query, and the call log holds the two cache gets only: no negative
sentinel is written. -/
theorem getUserInfo_absent_record_fails :
    hasRow coldWorld 7 = none ∧
    (GetUserInfo Faults.ok coldWorld 7).1 = (none, some "redis: nil") ∧
    (GetUserInfo Faults.ok (GetUserInfo Faults.ok coldWorld 7).2 7).1
      = (none, some "redis: nil") ∧
    storeQueries (GetUserInfo Faults.ok (GetUserInfo Faults.ok coldWorld 7).2 7).2 7 = 0 ∧
    (GetUserInfo Faults.ok (GetUserInfo Faults.ok coldWorld 7).2 7).2.log
      = [Event.cacheGet (GetUserInfoCacheKey 7), Event.cacheGet (GetUserInfoCacheKey 7)] ∧
    cacheLookup (GetUserInfo Faults.ok (GetUserInfo Faults.ok coldWorld 7).2 7).2.cache
      (GetUserInfoCacheKey 7) = none := by
  decide

/-- C5 refuted on `coldWorld`, id 1, where the store query by itself succeeds
and finds the record: with a failing cache get `GetUserInfo` returns no record
and the cache error, without querying the store. -/
theorem getUserInfo_cache_failure_counterexample :
    (coldWorld.dbRawScan cacheGetDown Column.id (SQLArg.int 1) UserInfoModel.zero).1
      = (amy, none) ∧
    (GetUserInfo cacheGetDown coldWorld 1).1 = (none, some "redis: get failed") ∧
    storeQueries (GetUserInfo cacheGetDown coldWorld 1).2 1 = 0 := by
  decide

/-- C5 as amended: a failing cache get fails the read.  If the cache get
returns an error, `GetUserInfo` returns no record together with that error;
the call log gains the cache get only (the store is not queried) and the
cache and the store are left as they were. -/
theorem getUserInfo_cache_get_error (f : Faults) (w : World) (id : Int) (e : GoError)
    (hget : f.cacheGet = some e) :
    (GetUserInfo f w id).1 = (none, some e) ∧
    (GetUserInfo f w id).2.log = w.log ++ [Event.cacheGet (GetUserInfoCacheKey id)] ∧
    (GetUserInfo f w id).2.cache = w.cache ∧
    (GetUserInfo f w id).2.db = w.db := by
  rw [getUserInfo_cacheErr f w id e hget]
  exact ⟨rfl, rfl, rfl, rfl⟩

/-- C5 as amended, with a failing cache get on `coldWorld`, id 1. -/
theorem getUserInfo_cache_get_error_witness :
    cacheGetDown.cacheGet = some "redis: get failed" ∧
    (GetUserInfo cacheGetDown coldWorld 1).1 = (none, some "redis: get failed") ∧
    (GetUserInfo cacheGetDown coldWorld 1).2.log
      = coldWorld.log ++ [Event.cacheGet (GetUserInfoCacheKey 1)] :=
  ⟨rfl,
    (getUserInfo_cache_get_error cacheGetDown coldWorld 1 "redis: get failed" rfl).1,
    (getUserInfo_cache_get_error cacheGetDown coldWorld 1 "redis: get failed" rfl).2.1⟩

/-- C6 at a failing input: id 1 misses the cache of `coldWorld` and the store
is down.  `GetUserInfo 1` returns the error of the cache get, not the store
error: the store is not queried at all.  The cache is unchanged. -/
theorem getUserInfo_store_down_unnoticed :
    cacheLookup coldWorld.cache (GetUserInfoCacheKey 1) = none ∧
    storeDown.dbQuery = some "db: connection refused" ∧
    (GetUserInfo storeDown coldWorld 1).1 = (none, some "redis: nil") ∧
    (GetUserInfo storeDown coldWorld 1).2.log = [Event.cacheGet (GetUserInfoCacheKey 1)] ∧
    (GetUserInfo storeDown coldWorld 1).2.cache = coldWorld.cache := by
  decide

/-! ## The write path -/

/-- C8: `UpdateUserInfo` returns no error exactly when the load of the current
record and the store update both succeed; its result is the same whatever the
outcome of the cache delete; and it issues one cache delete for the key of
`id` when it succeeds and none otherwise. -/
theorem updateUserInfo_outcome (f : Faults) (w : World) (id : Int) (data : UserInfoModel) :
    ((UpdateUserInfo f w id data).1 = none ↔
      (GetUserInfo f w id).1.2 = none ∧
      ((GetUserInfo f w id).2.dbUpdates f (GetUserInfo f w id).1.1 data).1 = none) ∧
    (∀ d : Option GoError,
      (UpdateUserInfo { f with cacheDel := d } w id data).1 = (UpdateUserInfo f w id data).1) ∧
    (UpdateUserInfo f w id data).2.log.count (Event.cacheDel (GetUserInfoCacheKey id))
      = w.log.count (Event.cacheDel (GetUserInfoCacheKey id))
        + (if (UpdateUserInfo f w id data).1 = none then 1 else 0) := by
  refine ⟨?_, ?_, ?_⟩
  · unfold UpdateUserInfo
    rcases hg : GetUserInfo f w id with ⟨⟨item, err⟩, w1⟩
    cases err with
    | some e => simp
    | none =>
      rcases hu : w1.dbUpdates f item data with ⟨uerr, w2⟩
      cases uerr <;> simp [hu]
  · intro d
    unfold UpdateUserInfo
    rw [getUserInfo_ignores_cacheDel]
    rcases hg : GetUserInfo f w id with ⟨⟨item, err⟩, w1⟩
    cases err with
    | some e => rfl
    | none =>
      simp only [dbUpdates_ignores_cacheDel]
      rcases hu : w1.dbUpdates f item data with ⟨uerr, w2⟩
      cases uerr <;> simp
  · have hc := getUserInfo_count_del f w id (GetUserInfoCacheKey id)
    unfold UpdateUserInfo
    rcases hg : GetUserInfo f w id with ⟨⟨item, err⟩, w1⟩
    rw [hg] at hc
    cases err with
    | some e => simpa using hc
    | none =>
      have hd := dbUpdates_count_del f w1 item data (GetUserInfoCacheKey id)
      rcases hu : w1.dbUpdates f item data with ⟨uerr, w2⟩
      rw [hu] at hd
      cases uerr with
      | some e => simp [hu] at hd hc ⊢; omega
      | none =>
        simp only [hu, DelUserInfoCache, World.cacheDel, World.record] at hd hc ⊢
        cases f.cacheDel <;> simp [List.count_append, List.count_cons] <;> omega

/-- The cache content of `warmWorld` is what a batch read of id 1 leaves in
the cache of `coldWorld`. -/
theorem warmWorld_cache_reachable :
    (BatchGetUserInfo Faults.ok coldWorld [1]).2.cache = warmWorld.cache := by
  decide

/-- C4 refuted on `warmWorld` (a copy of the record cached) with a failing
cache delete: `UpdateUserInfo 1 emailPatch` succeeds and the store row carries
the new email, yet the following `GetUserInfo 1` returns the cached pre-update
copy, with the old email. -/
theorem stale_read_after_update_counterexample :
    hasRow warmWorld 1 = some amy ∧ amy.Email = "a@x.com" ∧
    (UpdateUserInfo cacheDelDown warmWorld 1 emailPatch).1 = none ∧
    Option.map UserInfoModel.Email
        (hasRow (UpdateUserInfo cacheDelDown warmWorld 1 emailPatch).2 1)
      = some "amy@new.org" ∧
    (GetUserInfo Faults.ok (UpdateUserInfo cacheDelDown warmWorld 1 emailPatch).2 1).1
      = (some amy, none) := by
  decide

/-- C4 as amended: for every id, every patch and every prior cache state, if
`UpdateUserInfo` returns success and its cache delete succeeded, then the
cache holds no entry under the key of the id, and the store rows that carry
the identifier of the loaded record are the patched ones: the pre-update copy
is no longer there for a following `GetUserInfo` to be served from. -/
theorem updateUserInfo_invalidates (f : Faults) (w : World) (id : Int) (patch : UserInfoModel)
    (hdel : f.cacheDel = none)
    (hok : (UpdateUserInfo f w id patch).1 = none) :
    cacheLookup (UpdateUserInfo f w id patch).2.cache (GetUserInfoCacheKey id) = none ∧
    ∃ item, (GetUserInfo f w id).1 = (some item, none) ∧
      (UpdateUserInfo f w id patch).2.db
        = w.db.map (fun r => if r.ID = item.ID then applyPatch r patch else r) := by
  have hdb := getUserInfo_db f w id
  unfold UpdateUserInfo at hok ⊢
  rcases hg : GetUserInfo f w id with ⟨⟨item, err⟩, w1⟩
  rw [hg] at hok hdb
  cases err with
  | some e => simp at hok
  | none =>
    cases item with
    | none => simp [World.dbUpdates] at hok
    | some it =>
      simp only [World.dbUpdates] at hok ⊢
      cases hu : f.dbUpdate with
      | some e => simp [hu] at hok
      | none =>
        by_cases h0 : it.ID = 0
        · simp [hu, h0] at hok
        · have hdb1 : w1.db = w.db := hdb
          by_cases hdup : patch.ID ≠ 0 ∧ patch.ID ≠ it.ID ∧
              (w1.record (Event.dbUpdate it.ID)).db.any (fun r => r.ID == it.ID) ∧
              (w1.record (Event.dbUpdate it.ID)).db.any (fun r => r.ID == patch.ID)
          · rw [hu] at hok
            simp only [] at hok
            rw [if_neg h0, if_pos hdup] at hok
            cases hok
          · rw [if_neg h0, if_neg hdup]
            simp only [DelUserInfoCache, World.cacheDel, hdel, World.record, hdb1]
            exact ⟨cacheLookup_cacheErase_self _ _, it, rfl, rfl⟩

/-- C4 as amended, on `warmWorld`: id 1, `emailPatch`, every call succeeding. -/
theorem updateUserInfo_invalidates_witness :
    Faults.ok.cacheDel = none ∧
    (UpdateUserInfo Faults.ok warmWorld 1 emailPatch).1 = none ∧
    cacheLookup (UpdateUserInfo Faults.ok warmWorld 1 emailPatch).2.cache
      (GetUserInfoCacheKey 1) = none ∧
    Option.map UserInfoModel.Email
        (hasRow (UpdateUserInfo Faults.ok warmWorld 1 emailPatch).2 1)
      = some "amy@new.org" :=
  ⟨rfl, by decide,
    (updateUserInfo_invalidates Faults.ok warmWorld 1 emailPatch rfl (by decide)).1,
    by decide⟩

/-! ## Concurrent reads -/

/-- A caller scheduled alone makes the calls of `GetUserInfo` and returns its
result: the interleaved semantics restricts to the sequential one. -/
theorem step_seq (f : Faults) (w : World) (id : Int) :
    Sys.run f id (Sys.init w 1) [0, 0, 0]
      = { world := (GetUserInfo f w id).2, pcs := [Pc.done (GetUserInfo f w id).1] } := by
  rcases getUserInfo_cases f w id with ⟨e, hg, h⟩ | ⟨r, t, hg, hl, h⟩ | ⟨t, hg, hl, h⟩ |
    ⟨hg, hl, h⟩
  all_goals rw [h]
  · simp [Sys.run, Sys.init, Sys.step, stepGetUserInfo, GetUserInfoCache, World.cacheGet, hg]
  · simp [Sys.run, Sys.init, Sys.step, stepGetUserInfo, GetUserInfoCache, World.cacheGet, hg, hl]
  · simp [Sys.run, Sys.init, Sys.step, stepGetUserInfo, GetUserInfoCache, World.cacheGet, hg, hl]
  · simp [Sys.run, Sys.init, Sys.step, stepGetUserInfo, GetUserInfoCache, World.cacheGet, hg, hl]

/-- One call of one caller when the cache holds nothing under the key: the
caller stays returned, or returns the error of the cache get; the store and
the cache are untouched and the store receives no query. -/
theorem stepGetUserInfo_absent (id : Int) (w : World) (pc : Pc)
    (hmiss : cacheLookup w.cache (GetUserInfoCacheKey id) = none)
    (hpc : pc = Pc.start ∨ pc = Pc.done (none, some ErrRedisNil)) :
    (stepGetUserInfo Faults.ok id w pc).1 = Pc.done (none, some ErrRedisNil) ∧
    (stepGetUserInfo Faults.ok id w pc).2.cache = w.cache ∧
    (stepGetUserInfo Faults.ok id w pc).2.db = w.db ∧
    storeQueries (stepGetUserInfo Faults.ok id w pc).2 id = storeQueries w id := by
  rcases hpc with h | h
  · subst h
    simp [stepGetUserInfo, GetUserInfoCache, World.cacheGet, Faults.ok, hmiss, World.record,
      storeQueries, List.count_append]
  · subst h
    simp [stepGetUserInfo]

/-- Whatever the number of concurrent callers of `GetUserInfo id` and whatever
the interleaving, when the cache holds nothing under the key the store receives
no query, the cache stays as it is, and every caller that has returned got the
error of the cache get. -/
theorem readers_absent_run (w : World) (id : Int) (n : Nat) (sched : List Nat)
    (hmiss : cacheLookup w.cache (GetUserInfoCacheKey id) = none) :
    (Sys.run Faults.ok id (Sys.init w n) sched).world.cache = w.cache ∧
    (Sys.run Faults.ok id (Sys.init w n) sched).world.db = w.db ∧
    storeQueries (Sys.run Faults.ok id (Sys.init w n) sched).world id = storeQueries w id ∧
    ∀ pc ∈ (Sys.run Faults.ok id (Sys.init w n) sched).pcs,
      pc = Pc.start ∨ pc = Pc.done (none, some ErrRedisNil) := by
  have key : ∀ (sched : List Nat) (s : Sys), s.world.cache = w.cache → s.world.db = w.db →
      storeQueries s.world id = storeQueries w id →
      (∀ pc ∈ s.pcs, pc = Pc.start ∨ pc = Pc.done (none, some ErrRedisNil)) →
      (Sys.run Faults.ok id s sched).world.cache = w.cache ∧
      (Sys.run Faults.ok id s sched).world.db = w.db ∧
      storeQueries (Sys.run Faults.ok id s sched).world id = storeQueries w id ∧
      ∀ pc ∈ (Sys.run Faults.ok id s sched).pcs,
        pc = Pc.start ∨ pc = Pc.done (none, some ErrRedisNil) := by
    intro sched
    induction sched with
    | nil => intro s hc hd hq hp; exact ⟨hc, hd, hq, hp⟩
    | cons i rest ih =>
      intro s hc hd hq hp
      have hrun : Sys.run Faults.ok id s (i :: rest)
          = Sys.run Faults.ok id (Sys.step Faults.ok id s i) rest := rfl
      rw [hrun]
      cases hi : s.pcs[i]? with
      | none =>
        have hs : Sys.step Faults.ok id s i = s := by simp [Sys.step, hi]
        rw [hs]
        exact ih s hc hd hq hp
      | some pc =>
        have hmiss1 : cacheLookup s.world.cache (GetUserInfoCacheKey id) = none := by
          rw [hc]; exact hmiss
        obtain ⟨h1, h2, h3, h4⟩ :=
          stepGetUserInfo_absent id s.world pc hmiss1 (hp pc (List.getElem?_mem hi))
        have hs : Sys.step Faults.ok id s i
            = { world := (stepGetUserInfo Faults.ok id s.world pc).2,
                pcs := s.pcs.set i (stepGetUserInfo Faults.ok id s.world pc).1 } := by
          simp [Sys.step, hi]
        rw [hs]
        refine ih _ (by rw [h2]; exact hc) (by rw [h3]; exact hd) (by rw [h4]; exact hq) ?_
        intro p hpm
        rcases List.mem_or_eq_of_mem_set hpm with h | h
        · exact hp p h
        · exact Or.inr (h.trans h1)
  refine key sched (Sys.init w n) rfl rfl rfl ?_
  intro pc hpc
  exact Or.inl (List.eq_of_mem_replicate hpc)

/-- C9 at a failing input: two concurrent `GetUserInfo 1` on `coldWorld`
(record stored, nothing cached), each scheduled three times.  Both callers
have returned no record and the error of the cache get, and the store has
received no query for the id: not the one query of the claim. -/
theorem two_readers_no_query :
    hasRow coldWorld 1 = some amy ∧
    cacheLookup coldWorld.cache (GetUserInfoCacheKey 1) = none ∧
    (Sys.run Faults.ok 1 (Sys.init coldWorld 2) [0, 1, 0, 1, 0, 1]).pcs
      = [Pc.done (none, some "redis: nil"), Pc.done (none, some "redis: nil")] ∧
    storeQueries (Sys.run Faults.ok 1 (Sys.init coldWorld 2) [0, 1, 0, 1, 0, 1]).world 1
      = 0 := by
  decide

/-! ## Secondary lookups -/

/-- The three secondary lookups are one function: each formats the username
statement. -/
theorem secondary_lookups_coincide (f : Faults) (w : World) (s : String) :
    GetUserByEmail f w s = GetUserByUsername f w s ∧
    GetUserByPhone f w s = GetUserByUsername f w s :=
  ⟨rfl, rfl⟩


/-- C7 at a failing input: in `coldWorld`, whose record `amy` has email
`a@x.com` and phone `555`, `GetUserByEmail "a@x.com"` and `GetUserByPhone "555"`
return an empty record, while `GetUserByEmail "amy"` and `GetUserByPhone "amy"`
return `amy`: both select on the username column, as their logged statement
shows. -/
theorem getUserByEmail_selects_on_username :
    (GetUserByUsername Faults.ok coldWorld "amy").1 = (some amy, none) ∧
    (GetUserByEmail Faults.ok coldWorld "a@x.com").1 = (some UserInfoModel.zero, none) ∧
    (GetUserByEmail Faults.ok coldWorld "amy").1 = (some amy, none) ∧
    (GetUserByPhone Faults.ok coldWorld "555").1 = (some UserInfoModel.zero, none) ∧
    (GetUserByPhone Faults.ok coldWorld "amy").1 = (some amy, none) ∧
    (GetUserByEmail Faults.ok coldWorld "a@x.com").2.log
      = [Event.dbSelect Column.username (SQLArg.str "a@x.com")] ∧
    (GetUserByPhone Faults.ok coldWorld "555").2.log
      = [Event.dbSelect Column.username (SQLArg.str "555")] := by
  decide

/-! ## Batch reads -/

/-- What the loop of `BatchGetUserInfo` computes: the items found under
`cast.ToString v`, and the ids `v` for which there is none. -/
theorem partitionIDs_eq (itemMap : List (String × UserInfoModel)) (ids : List Int)
    (ret : List UserInfoModel) (missedID : List Int) :
    partitionIDs itemMap ids (ret, missedID)
      = (ret ++ ids.filterMap (fun v => itemMap.lookup (castToString v)),
         missedID ++ ids.filter (fun v => (itemMap.lookup (castToString v)).isNone)) := by
  induction ids generalizing ret missedID with
  | nil => simp [partitionIDs]
  | cons v vs ih =>
    cases h : itemMap.lookup (castToString v) with
    | none => simp [partitionIDs, h, ih, List.filterMap_cons, List.filter_cons]
    | some item => simp [partitionIDs, h, ih, List.filterMap_cons, List.filter_cons]


theorem multiGetMap_lookup_mem (c : CacheState) (keys : List String) (s : String)
    (r : UserInfoModel) (h : (multiGetMap c keys).lookup s = some r) : s ∈ keys := by
  induction keys with
  | nil => simp [multiGetMap] at h
  | cons k ks ih =>
    unfold multiGetMap at h
    split at h
    · by_cases hs : s = k
      · simp [hs]
      · have hb : (s == k) = false := by simpa using hs
        simp only [List.lookup, hb] at h
        exact List.mem_cons_of_mem _ (ih h)
    · exact List.mem_cons_of_mem _ (ih h)

theorem multiGetMap_lookup_castToString (c : CacheState) (ids : List Int) (v : Int) :
    (multiGetMap c (ids.map GetUserInfoCacheKey)).lookup (castToString v) = none := by
  cases h : (multiGetMap c (ids.map GetUserInfoCacheKey)).lookup (castToString v) with
  | none => rfl
  | some r =>
    have hmem := multiGetMap_lookup_mem c _ _ r h
    obtain ⟨j, -, hj⟩ := List.mem_map.mp hmem
    exact absurd hj.symm (castToString_ne_cacheKey v j)

/-- Whatever the cache holds, the loop of `BatchGetUserInfo` classifies every
id as missed and takes no item from the map. -/
theorem partitionIDs_all_missed (c : CacheState) (ids ids1 : List Int) :
    partitionIDs (multiGetMap c (ids.map GetUserInfoCacheKey)) ids1 ([], []) = ([], ids1) := by
  rw [partitionIDs_eq]
  simp [multiGetMap_lookup_castToString]

/-- With no failing call, `BatchGetUserInfo` on a non-empty list returns what
the store holds for the listed ids, after a store query that lists every
requested id; the cache content has no part in the result. -/
theorem batchGetUserInfo_ok (w : World) (ids : List Int) (hne : ids ≠ []) :
    (BatchGetUserInfo Faults.ok w ids).1
      = (w.db.filter (fun r => decide (toString r.ID ∈ castToStringSlice ids)), none) ∧
    Event.dbSelectIn (castToStringSlice ids) ∈ (BatchGetUserInfo Faults.ok w ids).2.log := by
  have hlen : 0 < ids.length := List.length_pos.mpr hne
  have hpart := partitionIDs_all_missed w.cache ids ids
  constructor
  · simp only [BatchGetUserInfo, MultiGetUserInfoCache, World.cacheMultiGet, Faults.ok, hpart]
    simp only [gt_iff_lt, hlen, if_true, World.dbRawScanIn, World.record, MultiSetUserInfoCache,
      World.cacheMultiSet, List.nil_append]
    split <;> simp_all
  · simp only [BatchGetUserInfo, MultiGetUserInfoCache, World.cacheMultiGet, Faults.ok, hpart]
    simp only [gt_iff_lt, hlen, if_true, World.dbRawScanIn, World.record, MultiSetUserInfoCache,
      World.cacheMultiSet, List.nil_append]
    split <;> simp

/-- C10 at a failing input: on `warmWorld` the map returned by
`MultiGetUserInfoCache [1]` has the key `GetUserInfoCacheKey 1`, yet the loop
of `BatchGetUserInfo`, which looks up `cast.ToString 1`, classifies id 1 as
missed and uses no cached value. -/
theorem partitionIDs_misses_cache_key :
    (MultiGetUserInfoCache Faults.ok warmWorld [1]).1
      = ([(GetUserInfoCacheKey 1, amy)], none) ∧
    List.lookup (GetUserInfoCacheKey 1) [(GetUserInfoCacheKey 1, amy)] = some amy ∧
    castToString 1 ≠ GetUserInfoCacheKey 1 ∧
    partitionIDs [(GetUserInfoCacheKey 1, amy)] [1] ([], []) = ([], [1]) := by
  decide

/-- C3 at a failing input: on `warmWorld` (id 1 cached, id 2 stored but not
cached, id 9 not stored) the batch-get returns id 1, so the ids that missed the
cache are 2 and 9; `BatchGetUserInfo [1, 2, 9]` returns the two stored records
once each, but its store query lists all three ids. -/
theorem batchGetUserInfo_queries_every_id :
    (MultiGetUserInfoCache Faults.ok warmWorld [1, 2, 9]).1
      = ([(GetUserInfoCacheKey 1, amy)], none) ∧
    (BatchGetUserInfo Faults.ok warmWorld [1, 2, 9]).1 = ([amy, bob], none) ∧
    (BatchGetUserInfo Faults.ok warmWorld [1, 2, 9]).2.log.filter
        (fun e => e matches Event.dbSelectIn _)
      = [Event.dbSelectIn ["1", "2", "9"]] := by
  decide

end UserService
